import Mathlib

/-!
Verification development for the nightshift repository (Go).

The repository sources under verification are:
  * internal/agent/scale.go       — the dispatch loop (worker.Scale, worker.getEvents)
  * internal/scanner/openshift.go — the OpenShift scanner (Scale, SaveState,
    getDeploymentConfig(s), getObjects, Watch, toObject)

Shallow embedding conventions:
  * Timestamps are natural numbers counting minutes.  One calendar day is 1440
    minutes; Go's time.AddDate(0,0,1) becomes `+ oneDay` (the model has a fixed
    offset timezone, no DST).  Weekdays are day-index mod 7; day index 0 is
    taken to be a Monday.
  * Go errors become Except/Option values; the kubernetes client pointer
    becomes an Option field; channels become lists of delivered values.
  * The schedule package (schedule.Schedule with GetNextTrigger/GetReplicas),
    the scanner type declarations (Object, State, Event, Config) and the
    helpers getSchedule/getState/getKubernetes are referenced by the sources
    but are not part of the source tree; those parts are modelled from the
    spec, and each such definition is marked `Modelled from the spec:`.
-/

namespace Nightshift

/-- Minutes in one calendar day; Go's AddDate(0,0,1) adds one of these. -/
def oneDay : Nat := 1440

/-- Rule action, from the spec data model: action ∈ {None, Save, Restore}. -/
inductive Action where
  | none
  | save
  | restore
deriving DecidableEq

/-- Modelled from the spec: the schedule package is not under src/.  A parsed
ScheduleRule: set of weekdays (numbers 0..6, 0 = Monday), time-of-day at
minute resolution, optional target replica count, action, ordered trigger
identifier list. -/
structure Schedule where
  days : List Nat
  timeOfDay : Nat
  replicas : Option Nat
  action : Action
  triggers : List String
deriving DecidableEq

/-- Whether timestamp t is on one of the rule's weekdays at the rule's
time-of-day. -/
def matchesAt (s : Schedule) (t : Nat) : Bool :=
  s.days.contains (t / oneDay % 7) && (t % oneDay == s.timeOfDay)

/-- Modelled from the spec: the candidate scan inside GetNextTrigger.  It
scans candidate dates (day of t0) + k for k counting up, builds the candidate
at the rule's time-of-day, and accepts the first candidate that is both on a
matching weekday and ≥ t0.  The second argument is the current k, the third
the number of candidates still to try. -/
def gntScan (s : Schedule) (t0 : Nat) : Nat → Nat → Option Nat
  | _, 0 => Option.none
  | k, Nat.succ n =>
    if s.days.contains (((t0 / oneDay + k) * oneDay + s.timeOfDay) / oneDay % 7) ∧
        t0 ≤ (t0 / oneDay + k) * oneDay + s.timeOfDay then
      some ((t0 / oneDay + k) * oneDay + s.timeOfDay)
    else gntScan s t0 (k + 1) n

/-- Modelled from the spec: GetNextTrigger(from) returns the earliest
timestamp ≥ from whose time-of-day equals the rule's and whose weekday is in
the rule's day set, by scanning candidates k = 0..6; it fails with a no-match
error when no candidate is accepted. -/
def GetNextTrigger (s : Schedule) (t0 : Nat) : Option Nat :=
  gntScan s t0 0 7

/-- Modelled from the spec: GetReplicas resolves the rule's target count.  The
dispatch loop in scale.go calls it with no state argument, so of the spec's
clauses only the explicit-replica one can apply here: the explicit count when
present, failure otherwise. -/
def GetReplicas (s : Schedule) : Option Nat :=
  s.replicas

/-- Modelled from the spec: the scanner Object type declaration is not under
src/.  Fields follow the spec data model; the bound scale operation of the
code (a nilable function pointer) is modelled by hasScale (whether it is
non-nil) together with scaleFails (the replica values at which a call to it
returns an error). -/
structure Object where
  name : String
  ns : String
  uid : String
  otype : String
  priority : Nat
  schedule : List Schedule
  state : Option Nat
  replicas : Nat
  hasScale : Bool
  scaleFails : List Nat
deriving DecidableEq

namespace agent

/-- The event struct of scale.go: a trigger timestamp, the owning Object and
the originating rule.  The Go field `at` is called `ts` here (`at` is a Lean
keyword). -/
structure event where
  ts : Nat
  obj : Object
  sched : Schedule
deriving DecidableEq

/-- One step of the per-rule anchor walk of getEvents (scale.go):
for next := past; !next.After(now); next = next.AddDate(0,0,1) {
  next, err = s.GetNextTrigger(next); if err != nil { continue };
  if now.After(next) || now == next { record } }.
On a GetNextTrigger error Go leaves the zero time in next and the loop's post
statement advances it by one day, hence the `oneDay` anchor in the error
branch.  The Go loop has no iteration bound, so the recursion carries fuel;
walkRule returns the recorded trigger timestamps in recording order. -/
def walkRule (s : Schedule) (tnow : Nat) : Nat → Nat → List Nat
  | 0, _ => []
  | Nat.succ fuel, next =>
    if tnow < next then []
    else
      match GetNextTrigger s next with
      | Option.none => walkRule s tnow fuel oneDay
      | some t => (if t ≤ tnow then [t] else []) ++ walkRule s tnow fuel (t + oneDay)

/-- Fuel that the walk can never exhaust when the first GetNextTrigger call
succeeds: anchors then advance by at least one day per iteration. -/
def ruleFuel (tnow : Nat) : Nat :=
  tnow / oneDay + 3

/-- The per-rule walk of getEvents, run from anchor `past` with full fuel. -/
def walkRuleTop (s : Schedule) (past tnow : Nat) : List Nat :=
  walkRule s tnow (ruleFuel tnow) past

/-- The event list getEvents accumulates before sorting: rules in their order
in obj.Schedule, each contributing its walk's triggers in recording order. -/
def getEventsRaw (past tnow : Nat) (obj : Object) : List event :=
  obj.schedule.flatMap (fun s => (walkRuleTop s past tnow).map (fun t => ⟨t, obj, s⟩))

/-- Insertion of one event into an already collected list, placing it after
every event with a timestamp ≤ its own. -/
def insertEvent (e : event) : List event → List event
  | [] => [e]
  | f :: rest => if f.ts ≤ e.ts then f :: insertEvent e rest else e :: f :: rest

/-- The sort.Slice(ev, func(i,j) { return ev[i].at.Before(ev[j].at) }) call of
getEvents, modelled as a stable insertion sort on the trigger timestamp.
sort.Slice itself is documented as not stable; for at most six events every Go
release behaves exactly like this insertion sort (pre-1.19 toolchains add a
gap-6 shell pass that is a no-op below seven elements, 1.19+ pdqsort falls
back to insertion sort below thirteen), and beyond that the tie behaviour is
toolchain dependent. -/
def sortEvents (evs : List event) : List event :=
  evs.foldl (fun acc e => insertEvent e acc) []

/-- getEvents of scale.go: the events to be done for the given object in the
current tick, in the order in which the loop applies them. -/
def getEvents (past tnow : Nat) (obj : Object) : List event :=
  sortEvents (getEventsRaw past tnow obj)

/-- Observable actions of one run of the dispatch loop's Scale pass.  The
constructors cover the calls the spec's dispatch loop can make; the embedding
of scale.go only ever emits scaleCall and logErr. -/
inductive Op where
  | scaleCall (uid : String) (n : Nat)
  | saveState (uid : String)
  | trigger (id : String)
  | logErr (uid : String)
deriving DecidableEq

/-- The body of the event loop in worker.Scale: skip objects with a nil Scale
binding; resolve GetReplicas; on success call the object's scale operation;
log any error of either step. -/
def applyEvent (e : event) : List Op :=
  if e.obj.hasScale then
    match GetReplicas e.sched with
    | some n =>
      Op.scaleCall e.obj.uid n :: (if e.obj.scaleFails.contains n then [Op.logErr e.obj.uid] else [])
    | Option.none => [Op.logErr e.obj.uid]
  else []

/-- Modelled from the spec: the worker struct declaration is not under src/.
It tracks the Object set (kept as an ordered list, the spec's fixed processing
order) and the `past` and `now` tick timestamps. -/
structure Worker where
  objects : List Object
  past : Nat
  now : Nat
deriving DecidableEq

/-- worker.Scale of scale.go: set now to the tick time, process every object's
events in order, then advance past to now unconditionally.  Returns the
updated worker and the trace of observable actions of the tick. -/
def Scale (w : Worker) (tnow : Nat) : Worker × List Op :=
  ({ objects := w.objects, past := tnow, now := tnow },
   w.objects.flatMap (fun o => (getEvents w.past tnow o).flatMap applyEvent))

end agent

namespace scanner

/-- The error every public scanner operation returns when the kubernetes
client could not be constructed. -/
def unableMsg : String := "unable to connect to kubernetes"

/-- Modelled from the spec: the save-state annotation key constant is declared
outside src/; only its role (the single key under which SaveState persists the
replica count) matters here. -/
def saveStateKey : String := "nightshift.savestate"

/-- A backend DeploymentConfig resource: name, uid, Spec.Replicas and the
metadata annotations (Go's map modelled as an association list). -/
structure DeploymentConfig where
  name : String
  uid : String
  specReplicas : Nat
  annotations : List (String × String)
deriving DecidableEq

/-- Map lookup on the annotation association list. -/
def lookupAnn (anns : List (String × String)) (k : String) : Option String :=
  (anns.find? (fun p => p.1 == k)).map (fun p => p.2)

/-- Map assignment m[k] = v on the annotation association list. -/
def setAnn : List (String × String) → String → String → List (String × String)
  | [], k, v => [(k, v)]
  | p :: rest, k, v => if p.1 == k then (k, v) :: rest else p :: setAnn rest k v

/-- Modelled from the spec: the scanner Config type declaration is not under
src/: namespace, label selector, default schedule rules (already parsed) and
priority. -/
structure Config where
  ns : String
  label : String
  schedule : List Schedule
  priority : Nat
deriving DecidableEq

/-- The OpenShiftScanner struct of openshift.go: the configuration and the
kubernetes client, which is nil (none) when getKubernetes failed during
construction. -/
structure OpenShiftScanner where
  config : Config
  kubernetes : Option Unit
deriving DecidableEq

/-- Modelled from the spec: getState is not under src/.  It parses the
persisted save-state annotation as a decimal replica count; a missing or
unparsable value yields no state. -/
def getState (anns : List (String × String)) : Option Nat :=
  (lookupAnn anns saveStateKey).bind String.toNat?

/-- Modelled from the spec: getSchedule (the rule-string parser and the merge
of the backend-specific override with the namespace default) is not under
src/.  The conversion attaches the resolved rule list; it is modelled as the
configured default schedule. -/
def getSchedule (defSched : List Schedule) (_anns : List (String × String)) : List Schedule :=
  defSched

/-- toObject of openshift.go: convert one DeploymentConfig to a scanner
Object.  The code never sets the Object's bound scale/save operations here, so
hasScale is false and scaleFails empty. -/
def toObject (s : OpenShiftScanner) (dc : DeploymentConfig) : Object :=
  { name := dc.name
    ns := s.config.ns
    uid := dc.uid
    otype := "openshift"
    priority := s.config.priority
    schedule := getSchedule s.config.schedule dc.annotations
    state := getState dc.annotations
    replicas := dc.specReplicas
    hasScale := false
    scaleFails := [] }

/-- The calls the scanner can issue against the backend API; each operation
additionally returns the list of calls it made, so that "never issues a
backend call" is a statement about that list. -/
inductive BackendCall where
  | getDC (ns name : String)
  | updateDC (ns name : String) (dc : DeploymentConfig)
  | getScale (ns name : String)
  | updateScale (ns name : String) (n : Nat)
  | listDCs (ns label : String)
  | watchDCs (ns label : String)
deriving DecidableEq

/-- Backend state: the DeploymentConfigs of the configured namespace, keyed by
name. -/
def findDC (b : List DeploymentConfig) (name : String) : Option DeploymentConfig :=
  b.find? (fun dc => dc.name == name)

/-- getDeploymentConfig of openshift.go: nil-client check, then a backend Get
of the object's DeploymentConfig. -/
def getDeploymentConfig (s : OpenShiftScanner) (b : List DeploymentConfig) (obj : Object) :
    Except String DeploymentConfig × List BackendCall :=
  match s.kubernetes with
  | Option.none => (Except.error unableMsg, [])
  | some _ =>
    match findDC b obj.name with
    | some dc => (Except.ok dc, [BackendCall.getDC obj.ns obj.name])
    | Option.none => (Except.error "deploymentconfig not found", [BackendCall.getDC obj.ns obj.name])

/-- getDeploymentConfigs of openshift.go: nil-client check, then a backend
List of the configured namespace and label selector. -/
def getDeploymentConfigs (s : OpenShiftScanner) (b : List DeploymentConfig) :
    Except String (List DeploymentConfig) × List BackendCall :=
  match s.kubernetes with
  | Option.none => (Except.error unableMsg, [])
  | some _ => (Except.ok b, [BackendCall.listDCs s.config.ns s.config.label])

/-- getObjects of openshift.go: convert each DeploymentConfig and keep those
with a schedule. -/
def getObjects (s : OpenShiftScanner) (dcs : List DeploymentConfig) : List Object :=
  dcs.filterMap (fun dc =>
    let o := toObject s dc
    if o.schedule ≠ [] then some o else Option.none)

/-- GetObjects of openshift.go. -/
def GetObjects (s : OpenShiftScanner) (b : List DeploymentConfig) :
    Except String (List Object) × List BackendCall :=
  match getDeploymentConfigs s b with
  | (Except.error e, calls) => (Except.error e, calls)
  | (Except.ok dcs, calls) => (Except.ok (getObjects s dcs), calls)

/-- Scale of openshift.go: log, nil-client check, GetScale, set the replica
count, UpdateScale.  Returns the result, the updated backend and the backend
calls made. -/
def Scale (s : OpenShiftScanner) (b : List DeploymentConfig) (obj : Object) (replicas : Nat) :
    Except String Unit × List DeploymentConfig × List BackendCall :=
  match s.kubernetes with
  | Option.none => (Except.error unableMsg, b, [])
  | some _ =>
    match findDC b obj.name with
    | Option.none => (Except.error "GetScale failed", b, [BackendCall.getScale obj.ns obj.name])
    | some _ =>
      (Except.ok (),
       b.map (fun d => if d.name == obj.name then { d with specReplicas := replicas } else d),
       [BackendCall.getScale obj.ns obj.name, BackendCall.updateScale obj.ns obj.name replicas])

instance {ε α : Type} [DecidableEq ε] [DecidableEq α] : DecidableEq (Except ε α) := fun a b =>
  match a, b with
  | Except.ok x, Except.ok y =>
    if h : x = y then isTrue (by rw [h]) else isFalse (by intro hc; cases hc; exact h rfl)
  | Except.error x, Except.error y =>
    if h : x = y then isTrue (by rw [h]) else isFalse (by intro hc; cases hc; exact h rfl)
  | Except.ok _, Except.error _ => isFalse (by intro hc; cases hc)
  | Except.error _, Except.ok _ => isFalse (by intro hc; cases hc)

/-- Result of one SaveState call: the returned error, the backend after the
call, the Object after the call (the code mutates obj.State in place) and the
backend calls made. -/
structure SaveStateResult where
  res : Except String Unit
  backend : List DeploymentConfig
  obj : Object
  calls : List BackendCall
deriving DecidableEq

/-- SaveState of openshift.go: re-read the live DeploymentConfig, take its
current Spec.Replicas, write it as a decimal string under the save-state
annotation key, set the Object's in-memory State to that count (before the
Update call), then Update the resource.  updOk models the outcome of the
final backend Update call. -/
def SaveState (s : OpenShiftScanner) (b : List DeploymentConfig) (obj : Object) (updOk : Bool) :
    SaveStateResult :=
  match getDeploymentConfig s b obj with
  | (Except.error e, calls) => ⟨Except.error e, b, obj, calls⟩
  | (Except.ok dc, calls) =>
    let dcW : DeploymentConfig :=
      { dc with annotations := setAnn dc.annotations saveStateKey (toString dc.specReplicas) }
    ⟨if updOk then Except.ok () else Except.error "update failed",
     if updOk then b.map (fun d => if d.name == obj.name then dcW else d) else b,
     { obj with state := some dc.specReplicas },
     calls ++ [BackendCall.updateDC obj.ns obj.name dcW]⟩

/-- The raw change-stream event types of the backend watch (k8s.io watch). -/
inductive WEventType where
  | added
  | modified
  | deleted
  | bookmark
  | error
deriving DecidableEq

/-- One raw change-stream event with its DeploymentConfig payload. -/
structure RawEvent where
  etype : WEventType
  dc : DeploymentConfig
deriving DecidableEq

/-- The backend watcher: the finite sequence of raw events its result channel
delivers before the channel closes (stream termination). -/
structure Watcher where
  stream : List RawEvent
deriving DecidableEq

/-- Event type published on the scanner's output channel. -/
inductive EventType where
  | add
  | remove
deriving DecidableEq

/-- The scanner Event published on the output channel. -/
structure Event where
  obj : Object
  etype : EventType
deriving DecidableEq

/-- The value Watch returns on success: the output channel together with the
watcher its background task consumes (nil when establishing the backend watch
failed, since that error is discarded). -/
structure WatchHandle where
  watcher : Option Watcher
deriving DecidableEq

/-- Watch of openshift.go: nil-client check, establish the backend watch —
whose error is assigned to err but never checked — then make the output
channel, start the background task, and return the channel with a nil error.
watchRes is the outcome of the backend watch call. -/
def Watch (s : OpenShiftScanner) (watchRes : Except String Watcher) :
    Except String WatchHandle × List BackendCall :=
  match s.kubernetes with
  | Option.none => (Except.error unableMsg, [])
  | some _ =>
    (Except.ok ⟨watchRes.toOption⟩, [BackendCall.watchDCs s.config.ns s.config.label])

/-- The switch in the watch goroutine body: Added republishes an Add event,
Deleted a Remove event, every other type nothing. -/
def convertRaw (s : OpenShiftScanner) (e : RawEvent) : List Event :=
  match e.etype with
  | WEventType.added => [⟨toObject s e.dc, EventType.add⟩]
  | WEventType.deleted => [⟨toObject s e.dc, EventType.remove⟩]
  | _ => []

/-- Observations of one run of the watch background task.  reconnectAttempt
is the vocabulary the spec's reconnect state machine would use (a pre-attempt
backoff delay); the task embedded from the source never emits it. -/
inductive TaskObs where
  | sentEvent (e : Event)
  | reconnectAttempt (delay : Nat)
deriving DecidableEq

/-- Outcome of the watch background task: its observations in order, and
whether it crashed (dereferenced a nil watcher). -/
structure TaskResult where
  obs : List TaskObs
  crashed : Bool
deriving DecidableEq

/-- The watch goroutine of openshift.go: it immediately calls
watcher.ResultChan() — a nil dereference when the watcher is nil — then ranges
over the channel, republishing converted events, and returns when the channel
closes.  There is no reconnection and no stop signal. -/
def runWatchTask (s : OpenShiftScanner) : Option Watcher → TaskResult
  | Option.none => ⟨[], true⟩
  | some w => ⟨w.stream.flatMap (fun e => (convertRaw s e).map TaskObs.sentEvent), false⟩

/-- The pre-attempt reconnect delays observed during one task run. -/
def reconnectDelays (r : TaskResult) : List Nat :=
  r.obs.filterMap (fun o =>
    match o with
    | TaskObs.reconnectAttempt d => some d
    | _ => Option.none)

/-- The C3 claim at one scanner and one (terminating) stream: on stream
termination the task reconnects with a first pre-attempt delay of one time
unit. -/
def backoffClaimAt (s : OpenShiftScanner) (w : Watcher) : Prop :=
  (reconnectDelays (runWatchTask s (some w))).head? = some 1

/-- The C4 claim's no-stop half at one scanner and one (terminating) stream:
with no stop signal received, reconnection is retried after stream
termination, so at least one reconnect attempt is observed. -/
def retriesClaimAt (s : OpenShiftScanner) (w : Watcher) : Prop :=
  1 ≤ (reconnectDelays (runWatchTask s (some w))).length

end scanner

namespace agent

/-- The per-rule walk exactly as the C5 claim words it, for comparison with
walkRuleTop: walk candidate days from past forward one day at a time
(inclusive), for each day compute GetNextTrigger anchored at that day's
start, and record the trigger exactly when it is ≤ now. -/
def specWalkRule (s : Schedule) (past tnow : Nat) : List Nat :=
  (List.range (tnow / oneDay + 1 - past / oneDay)).filterMap (fun k =>
    match GetNextTrigger s ((past / oneDay + k) * oneDay) with
    | some t => if t ≤ tnow then some t else Option.none
    | Option.none => Option.none)

/-- Whether an op is a Scale call on the object with the given uid. -/
def isScaleOf (uid : String) : Op → Bool
  | Op.scaleCall u _ => u == uid
  | _ => false

/-- The C1 claim at one worker and tick time: for every applied event whose
rule has action Save and whose object has a scale binding, the tick's trace
contains a SaveState call on the owning object before any Scale call on it. -/
def dispatchSaveClaim (w : Worker) (tnow : Nat) : Prop :=
  ∀ e ∈ w.objects.flatMap (fun o => getEvents w.past tnow o),
    e.sched.action = Action.save → e.obj.hasScale = true →
      Op.saveState e.obj.uid ∈
        ((Scale w tnow).2.takeWhile (fun op => !(isScaleOf e.obj.uid op)))

/-- The C2 claim at one worker and tick time: every trigger identifier of
every applied event's rule is dispatched during the tick. -/
def dispatchTriggerClaim (w : Worker) (tnow : Nat) : Prop :=
  ∀ e ∈ w.objects.flatMap (fun o => getEvents w.past tnow o),
    ∀ id ∈ e.sched.triggers, Op.trigger id ∈ (Scale w tnow).2

/-- An Object with its scale-failure behaviour erased, for stating that the
tick's attempted scale calls do not depend on per-call failures. -/
def stripFails (o : Object) : Object :=
  { o with scaleFails := [] }

/-- Project an op to its scale-call content. -/
def scaleProj : Op → Option (String × Nat)
  | Op.scaleCall u n => some (u, n)
  | _ => Option.none

/-- The (uid, replicas) scale attempts of one tick, in order. -/
def attemptedScales (w : Worker) (tnow : Nat) : List (String × Nat) :=
  ((Scale w tnow).2).filterMap scaleProj

/-- Retag an event onto another object (same timestamps, same rule). -/
def substObj (o : Object) (e : event) : event :=
  { e with obj := o }

end agent

section scenarios

open agent scanner

/-- C1 scenario rule: Wednesdays 08:00, replicas 0, action Save. -/
def sC1 : Schedule := ⟨[2], 480, some 0, Action.save, []⟩

/-- C1 scenario object: one Save rule, live scale binding. -/
def oC1 : Object := ⟨"dc1", "dev", "u1", "openshift", 10, [sC1], Option.none, 5, true, []⟩

/-- C1 scenario worker. -/
def wC1 : agent.Worker := ⟨[oC1], 600, 0⟩

/-- C2 scenario rule: Wednesdays 08:00, replicas 1, trigger refreshdb. -/
def sC2 : Schedule := ⟨[2], 480, some 1, Action.none, ["refreshdb"]⟩

/-- C2 scenario object. -/
def oC2 : Object := ⟨"dc2", "dev", "u2", "openshift", 10, [sC2], Option.none, 5, true, []⟩

/-- C2 scenario worker. -/
def wC2 : agent.Worker := ⟨[oC2], 600, 0⟩

/-- C5 scenario rule: Wednesdays 08:00. -/
def sC5 : Schedule := ⟨[2], 480, some 2, Action.none, []⟩

/-- C6 failing-input object: seven rules on the same weekday whose
time-of-day values produce the pre-sort timestamp pattern that the gap-6
shell pass of Go's pre-1.19 sort.Slice reorders on ties. -/
def oC6 : Object :=
  ⟨"dc6", "dev", "u6", "openshift", 10,
   [⟨[2], 500, some 1, Action.none, []⟩,
    ⟨[2], 100, some 1, Action.none, []⟩,
    ⟨[2], 200, some 1, Action.none, []⟩,
    ⟨[2], 400, some 1, Action.none, []⟩,
    ⟨[2], 300, some 1, Action.none, []⟩,
    ⟨[2], 900, some 1, Action.none, []⟩,
    ⟨[2], 400, some 1, Action.none, []⟩],
   Option.none, 5, true, []⟩

/-- C7 witness rule. -/
def sC7 : Schedule := ⟨[2], 480, some 0, Action.none, []⟩

/-- C7 witness object whose scale call fails at replicas 0. -/
def oC7 : Object := ⟨"dc7", "dev", "u7", "openshift", 10, [sC7], Option.none, 5, true, [0]⟩

/-- C7 witness object with no scale failures. -/
def oC7f : Object := ⟨"dc7", "dev", "u7", "openshift", 10, [sC7], Option.none, 5, true, []⟩

/-- C7 witness worker. -/
def wC7 : agent.Worker := ⟨[oC7], 600, 0⟩

/-- C7 witness event: the one event of oC7's tick. -/
def eC7 : agent.event := ⟨3360, oC7, sC7⟩

/-- Scanner configuration used by the scanner scenarios. -/
def cfg0 : scanner.Config := ⟨"dev", "app=shell", [], 10⟩

/-- C3 scenario scanner (client present). -/
def sc3 : OpenShiftScanner := ⟨cfg0, some ()⟩

/-- A backend DeploymentConfig used by the watch scenarios. -/
def dcA : DeploymentConfig := ⟨"app1", "uidA", 2, []⟩

/-- C3 scenario watcher: delivers one Added event, then the stream
terminates. -/
def wt3 : Watcher := ⟨[⟨WEventType.added, dcA⟩]⟩

/-- C4 scenario scanner (client present). -/
def sc4 : OpenShiftScanner := ⟨cfg0, some ()⟩

/-- C4 scenario watcher: delivers one Deleted event, then the stream
terminates; no stop signal is ever received (none exists). -/
def wt4 : Watcher := ⟨[⟨WEventType.deleted, dcA⟩]⟩

/-- C8 witness scanner. -/
def sc8 : OpenShiftScanner := ⟨cfg0, some ()⟩

/-- C8 witness backend resource: live replica count 5. -/
def dc8 : DeploymentConfig := ⟨"dc8", "uid8", 5, [("other", "x")]⟩

/-- C8 witness object: its snapshot says 3 replicas while the live resource
has 5, so a cached read would differ from the live one. -/
def o8 : Object := ⟨"dc8", "dev", "u8", "openshift", 10, [], Option.none, 3, false, []⟩

/-- C9 witness scanner. -/
def sc9 : OpenShiftScanner := ⟨cfg0, some ()⟩

/-- C10 witness scanner: the kubernetes client could not be constructed. -/
def sc10 : OpenShiftScanner := ⟨cfg0, Option.none⟩

/-- C10 witness object. -/
def o10 : Object := ⟨"dc10", "dev", "u10", "openshift", 10, [], Option.none, 1, false, []⟩

end scenarios

namespace agent

lemma applyEvent_ops (e : event) (op : Op) (h : op ∈ applyEvent e) :
    (∃ n, op = Op.scaleCall e.obj.uid n) ∨ op = Op.logErr e.obj.uid := by
  unfold applyEvent at h
  split at h
  · cases hr : GetReplicas e.sched with
    | none => rw [hr] at h; simp at h; exact Or.inr h
    | some n =>
      rw [hr] at h
      rcases List.mem_cons.mp h with h1 | h1
      · exact Or.inl ⟨n, h1⟩
      · split at h1
        · simp at h1; exact Or.inr h1
        · simp at h1
  · simp at h

lemma Scale_ops (w : Worker) (tnow : Nat) (op : Op) (h : op ∈ (Scale w tnow).2) :
    (∃ u n, op = Op.scaleCall u n) ∨ (∃ u, op = Op.logErr u) := by
  simp only [Scale, List.mem_flatMap] at h
  obtain ⟨o, _, e, _, hop⟩ := h
  rcases applyEvent_ops e op hop with ⟨n, rfl⟩ | rfl
  · exact Or.inl ⟨_, _, rfl⟩
  · exact Or.inr ⟨_, rfl⟩

/-- C1 (counterexample): at a worker with one object and one applied
Save-action event, the tick's trace is a single Scale call with no SaveState
call at all, so the claim that SaveState is called before Scale for
Save-action events is false on the code. -/
theorem dispatchSaveClaim_cex :
    ((getEvents 600 5320 oC1).map (fun e => e.sched.action) = [Action.save]) ∧
    (Scale wC1 5320).2 = [Op.scaleCall "u1" 0] ∧
    ¬ dispatchSaveClaim wC1 5320 := by
  refine ⟨by decide, by decide, ?_⟩
  unfold dispatchSaveClaim
  decide

/-- C1 (amended): the dispatch loop's Scale pass never calls SaveState on any
object — for any worker state and tick time, no SaveState op appears in the
trace of the tick. -/
theorem Scale_never_calls_SaveState (w : Worker) (tnow : Nat) (uid : String) :
    Op.saveState uid ∉ (Scale w tnow).2 := by
  intro h
  rcases Scale_ops w tnow _ h with ⟨u, n, hop⟩ | ⟨u, hop⟩ <;> simp at hop

/-- C2 (counterexample): at a worker with one object and one applied event
whose rule carries the trigger identifier refreshdb, the tick's trace is a
single Scale call and contains no trigger dispatch, so the claim that each
trigger identifier is dispatched is false on the code. -/
theorem dispatchTriggerClaim_cex :
    ((getEvents 600 5320 oC2).map (fun e => e.sched.triggers) = [["refreshdb"]]) ∧
    (Scale wC2 5320).2 = [Op.scaleCall "u2" 1] ∧
    ¬ dispatchTriggerClaim wC2 5320 := by
  refine ⟨by decide, by decide, ?_⟩
  unfold dispatchTriggerClaim
  decide

/-- C2 (amended): the dispatch loop never dispatches any trigger identifier —
for any worker state and tick time, no trigger op appears in the trace of the
tick; rules' trigger identifier lists are ignored by the Scale pass. -/
theorem Scale_never_fires_triggers (w : Worker) (tnow : Nat) (id : String) :
    Op.trigger id ∉ (Scale w tnow).2 := by
  intro h
  rcases Scale_ops w tnow _ h with ⟨u, n, hop⟩ | ⟨u, hop⟩ <;> simp at hop

/-- C6 (code_bug, evaluation at the failing input): the tick's pre-sort event
collection for the failing-input object has the timestamp pattern
[3380, 2980, 3080, 3280, 3180, 3780, 3280] — seven events with a tie at 3280
whose first occurrence is discovered fourth and second occurrence seventh.
Go's sort.Slice is documented as not stable; on the Go toolchains
contemporary with this code (pre-1.19), sorting seven elements runs a gap-6
shell pass first, which swaps indices 6 and 0 (3280 < 3380) and thereby moves
the later-discovered 3280 event ahead of the earlier-discovered one before
the stable insertion pass, so the tie is applied in reverse discovery
order. -/
theorem tie_order_failing_input :
    ((getEventsRaw 0 4320 oC6).map (fun e => e.ts) =
      [3380, 2980, 3080, 3280, 3180, 3780, 3280]) ∧
    ((getEventsRaw 0 4320 oC6).map (fun e => e.ts)).count 3280 = 2 := by decide

end agent

namespace scanner

/-- C3 (counterexample): at a scanner with a live client and a watcher whose
stream delivers one event and then terminates, the background task forwards
the one event and exits without any reconnect attempt, so its observed
pre-attempt delay list is empty and the claimed initial backoff delay of one
time unit never occurs. -/
theorem backoffClaim_cex :
    runWatchTask sc3 (some wt3) =
      ⟨[TaskObs.sentEvent ⟨toObject sc3 dcA, EventType.add⟩], false⟩ ∧
    ¬ backoffClaimAt sc3 wt3 := by
  refine ⟨by decide, ?_⟩
  unfold backoffClaimAt
  decide

/-- C3 (amended): the watch background task never reconnects: for every
scanner and every stream, the list of observed pre-attempt reconnect delays
of the task's run is empty — on stream termination the task simply exits. -/
theorem watch_no_reconnect (s : OpenShiftScanner) (w : Watcher) :
    reconnectDelays (runWatchTask s (some w)) = [] := by
  simp only [runWatchTask, reconnectDelays]
  induction w.stream with
  | nil => rfl
  | cons e rest ih =>
    simp only [List.flatMap_cons, List.filterMap_append, ih, List.append_nil]
    simp [List.filterMap_map, Function.comp]

/-- C4 (counterexample): at a scanner with a live client and a watcher whose
stream terminates while no stop signal was received (Watch accepts none), the
background task exits without a single reconnect attempt, so the claim that
reconnection retries indefinitely until success is false on the code. -/
theorem retriesClaim_cex :
    runWatchTask sc4 (some wt4) =
      ⟨[TaskObs.sentEvent ⟨toObject sc4 dcA, EventType.remove⟩], false⟩ ∧
    ¬ retriesClaimAt sc4 wt4 := by
  refine ⟨by decide, ?_⟩
  unfold retriesClaimAt
  decide

/-- C4 (amended): Watch accepts no stop signal; its background task ends with
the stream: it never crashes when a watcher is present, and every observation
of its run is a send converted from some raw stream event — there is no
reconnection attempt and nothing is sent after the stream terminates. -/
theorem watch_task_stream_only (s : OpenShiftScanner) (w : Watcher) :
    (runWatchTask s (some w)).crashed = false ∧
    ∀ ob ∈ (runWatchTask s (some w)).obs,
      ∃ raw ∈ w.stream, ob ∈ (convertRaw s raw).map TaskObs.sentEvent := by
  refine ⟨rfl, ?_⟩
  intro ob hob
  simp only [runWatchTask, List.mem_flatMap] at hob
  obtain ⟨raw, hraw, hmem⟩ := hob
  exact ⟨raw, hraw, hmem⟩

/-- C9: when the client is non-nil but the backend watch call fails, Watch
still returns a watch handle together with a nil error — the watch error is
discarded — and the handle's watcher is nil, which the background task then
dereferences (modelled as its crashed outcome). -/
theorem Watch_discards_error (s : OpenShiftScanner) (msg : String)
    (hk : s.kubernetes.isSome = true) :
    (Watch s (Except.error msg)).1 = Except.ok ⟨Option.none⟩ ∧
    (runWatchTask s Option.none).crashed = true := by
  obtain ⟨k, hk2⟩ := Option.isSome_iff_exists.mp hk
  exact ⟨by simp [Watch, hk2, Except.toOption], rfl⟩

/-- C9 witness: the theorem applied at a concrete scanner and watch error. -/
theorem Watch_discards_error_witness :
    sc9.kubernetes.isSome = true ∧
    ((Watch sc9 (Except.error "watch failed")).1 = Except.ok ⟨Option.none⟩ ∧
     (runWatchTask sc9 Option.none).crashed = true) :=
  ⟨by decide, Watch_discards_error sc9 "watch failed" (by decide)⟩

/-- C10: on a scanner whose kubernetes client is nil, every public operation —
GetObjects, Scale, SaveState and Watch — returns the "unable to connect to
kubernetes" error, leaves the backend and object untouched, and issues no
backend call. -/
theorem nil_client_errors (s : OpenShiftScanner) (b : List DeploymentConfig) (obj : Object)
    (n : Nat) (wr : Except String Watcher) (updOk : Bool) (h : s.kubernetes = Option.none) :
    GetObjects s b = (Except.error unableMsg, []) ∧
    Scale s b obj n = (Except.error unableMsg, b, []) ∧
    SaveState s b obj updOk = ⟨Except.error unableMsg, b, obj, []⟩ ∧
    Watch s wr = (Except.error unableMsg, []) := by
  refine ⟨?_, ?_, ?_, ?_⟩ <;>
    simp [GetObjects, getDeploymentConfigs, Scale, SaveState, getDeploymentConfig, Watch, h]

/-- C10 witness: the theorem applied at a concrete nil-client scanner. -/
theorem nil_client_errors_witness :
    sc10.kubernetes = Option.none ∧
    (GetObjects sc10 [dcA] = (Except.error unableMsg, []) ∧
     Scale sc10 [dcA] o10 4 = (Except.error unableMsg, [dcA], []) ∧
     SaveState sc10 [dcA] o10 true = ⟨Except.error unableMsg, [dcA], o10, []⟩ ∧
     Watch sc10 (Except.ok wt3) = (Except.error unableMsg, [])) :=
  ⟨by decide, nil_client_errors sc10 [dcA] o10 4 (Except.ok wt3) true (by decide)⟩

lemma lookupAnn_setAnn (anns : List (String × String)) (k v : String) :
    lookupAnn (setAnn anns k v) k = some v := by
  induction anns with
  | nil => simp [setAnn, lookupAnn, List.find?]
  | cons p rest ih =>
    simp only [setAnn]
    by_cases h : (p.1 == k) = true
    · rw [if_pos h]; simp [lookupAnn, List.find?]
    · rw [if_neg h]
      have hb : (p.1 == k) = false := by simpa using h
      simp only [lookupAnn, List.find?, hb]
      exact ih

/-- C8: every SaveState call re-reads the live replica count of the backend
resource (the conclusion depends only on the backend's DeploymentConfig, not
on the Object snapshot's replicas or state), writes that count as a decimal
string under the save-state annotation key of the updated resource it sends
to the backend, and sets the Object's in-memory State to that same count. -/
theorem SaveState_reads_live (s : OpenShiftScanner) (b : List DeploymentConfig) (obj : Object)
    (dc : DeploymentConfig) (updOk : Bool) (hk : s.kubernetes.isSome = true)
    (hdc : findDC b obj.name = some dc) :
    (SaveState s b obj updOk).obj.state = some dc.specReplicas ∧
    BackendCall.updateDC obj.ns obj.name
        { dc with annotations := setAnn dc.annotations saveStateKey (toString dc.specReplicas) }
      ∈ (SaveState s b obj updOk).calls ∧
    lookupAnn (setAnn dc.annotations saveStateKey (toString dc.specReplicas)) saveStateKey
      = some (toString dc.specReplicas) := by
  obtain ⟨k, hk2⟩ := Option.isSome_iff_exists.mp hk
  refine ⟨?_, ?_, lookupAnn_setAnn _ _ _⟩ <;>
    simp [SaveState, getDeploymentConfig, hk2, hdc]

/-- C8 witness: the theorem applied at a concrete scanner, backend and object
whose snapshot count (3) differs from the live count (5): the saved state and
persisted annotation show the live 5. -/
theorem SaveState_reads_live_witness :
    sc8.kubernetes.isSome = true ∧ findDC [dc8] o8.name = some dc8 ∧
    ((SaveState sc8 [dc8] o8 true).obj.state = some 5 ∧
     BackendCall.updateDC o8.ns o8.name
         { dc8 with annotations := setAnn dc8.annotations saveStateKey (toString 5) }
       ∈ (SaveState sc8 [dc8] o8 true).calls ∧
     lookupAnn (setAnn dc8.annotations saveStateKey (toString 5)) saveStateKey
       = some (toString 5)) :=
  ⟨by decide, by decide, SaveState_reads_live sc8 [dc8] o8 dc8 true (by decide) (by decide)⟩

end scanner

lemma matchesAt_true_iff (s : Schedule) (t : Nat) :
    matchesAt s t = true ↔
      (s.days.contains (t / oneDay % 7) = true ∧ t % oneDay = s.timeOfDay) := by
  simp [matchesAt]

lemma gntScan_some_spec (s : Schedule) (t0 : Nat) (htod : s.timeOfDay < oneDay) :
    ∀ n k t, gntScan s t0 k n = some t →
      s.days.contains (t / oneDay % 7) = true ∧ t % oneDay = s.timeOfDay ∧ t0 ≤ t ∧
      ∀ u, s.days.contains (u / oneDay % 7) = true → u % oneDay = s.timeOfDay →
        t0 ≤ u → t0 / oneDay + k ≤ u / oneDay → t ≤ u := by
  intro n
  induction n with
  | zero => intro k t h; simp [gntScan] at h
  | succ n ih =>
    intro k t h
    simp only [gntScan] at h
    split at h
    next hcond =>
      cases h
      refine ⟨hcond.1, ?_, hcond.2, ?_⟩
      · simp only [oneDay] at htod ⊢
        omega
      · intro u hu1 hu2 hu3 hu4
        simp only [oneDay] at htod hu2 hu4 ⊢
        omega
    next hcond =>
      obtain ⟨h1, h2, h3, hmin⟩ := ih (k + 1) t h
      refine ⟨h1, h2, h3, ?_⟩
      intro u hu1 hu2 hu3 hu4
      by_cases hday : u / oneDay = t0 / oneDay + k
      · exfalso
        apply hcond
        have hu_eq : u = (t0 / oneDay + k) * oneDay + s.timeOfDay := by
          simp only [oneDay] at htod hu2 hday ⊢
          omega
        exact ⟨by rw [← hu_eq]; exact hu1, by rw [← hu_eq]; exact hu3⟩
      · exact hmin u hu1 hu2 hu3 (by omega)

lemma gntScan_isSome (s : Schedule) (t0 : Nat) :
    ∀ n k, (∃ j, j < n ∧
        s.days.contains (((t0 / oneDay + (k + j)) * oneDay + s.timeOfDay) / oneDay % 7) = true ∧
        t0 ≤ (t0 / oneDay + (k + j)) * oneDay + s.timeOfDay) →
      (gntScan s t0 k n).isSome = true := by
  intro n
  induction n with
  | zero =>
    intro k h
    obtain ⟨j, hj, -, -⟩ := h
    omega
  | succ n ih =>
    intro k h
    obtain ⟨j, hj, hc, hge⟩ := h
    simp only [gntScan]
    split
    · rfl
    next hcond =>
      apply ih (k + 1)
      cases j with
      | zero => exact absurd ⟨by simpa using hc, by simpa using hge⟩ hcond
      | succ j' =>
        refine ⟨j', by omega, ?_, ?_⟩
        · have h1 : t0 / oneDay + (k + 1 + j') = t0 / oneDay + (k + (j' + 1)) := by omega
          rw [h1]; exact hc
        · have h1 : t0 / oneDay + (k + 1 + j') = t0 / oneDay + (k + (j' + 1)) := by omega
          rw [h1]; exact hge

lemma gnt_isSome_of_tod (s : Schedule) (a : Nat) (htod : s.timeOfDay < oneDay)
    (hma : a % oneDay = s.timeOfDay) (d : Nat) (hd7 : d < 7)
    (hd : s.days.contains d = true) : (GetNextTrigger s a).isSome = true := by
  unfold GetNextTrigger
  apply gntScan_isSome
  refine ⟨(d + 7 - a / oneDay % 7) % 7, by omega, ?_, ?_⟩
  · have h1 : ((a / oneDay + (0 + (d + 7 - a / oneDay % 7) % 7)) * oneDay + s.timeOfDay)
        / oneDay % 7 = d := by
      simp only [oneDay] at htod ⊢
      omega
    rw [h1]; exact hd
  · simp only [oneDay] at htod hma ⊢
    omega

lemma gnt_some (s : Schedule) (a t : Nat) (htod : s.timeOfDay < oneDay)
    (h : GetNextTrigger s a = some t) :
    s.days.contains (t / oneDay % 7) = true ∧ t % oneDay = s.timeOfDay ∧ a ≤ t ∧
    ∀ u, s.days.contains (u / oneDay % 7) = true → u % oneDay = s.timeOfDay →
      a ≤ u → t ≤ u := by
  obtain ⟨h1, h2, h3, hmin⟩ := gntScan_some_spec s a htod 7 0 t h
  refine ⟨h1, h2, h3, fun u hu1 hu2 hu3 => hmin u hu1 hu2 hu3 ?_⟩
  simpa using Nat.div_le_div_right hu3

namespace agent

lemma walkRule_spec (s : Schedule) (tnow : Nat) (htod : s.timeOfDay < oneDay) :
    ∀ fuel a, (GetNextTrigger s a).isSome = true →
      tnow / oneDay + 2 ≤ fuel + a / oneDay →
      ((∀ t, t ∈ walkRule s tnow fuel a ↔
          (matchesAt s t = true ∧ a ≤ t ∧ t ≤ tnow)) ∧
       (walkRule s tnow fuel a).Pairwise (· < ·)) := by
  intro fuel
  induction fuel with
  | zero =>
    intro a _ hfuel
    constructor
    · intro t
      simp only [walkRule, List.not_mem_nil, false_iff]
      rintro ⟨hm, ha, ht⟩
      have hta : a ≤ tnow := le_trans ha ht
      have hdiv : a / oneDay ≤ tnow / oneDay := Nat.div_le_div_right hta
      omega
    · simp [walkRule]
  | succ fuel ih =>
    intro a hsome hfuel
    obtain ⟨t0, ht0⟩ := Option.isSome_iff_exists.mp hsome
    obtain ⟨hc0, hm0, ha0, hmin0⟩ := gnt_some s a t0 htod ht0
    by_cases hat : tnow < a
    · constructor
      · intro t
        simp only [walkRule, if_pos hat, List.not_mem_nil, false_iff]
        rintro ⟨hm, ha, ht⟩
        omega
      · simp [walkRule, if_pos hat]
    · have hd7 : t0 / oneDay % 7 < 7 := Nat.mod_lt _ (by norm_num)
      have hnext_mod : (t0 + oneDay) % oneDay = s.timeOfDay := by
        simp only [oneDay] at hm0 ⊢
        omega
      have hnext_some : (GetNextTrigger s (t0 + oneDay)).isSome = true :=
        gnt_isSome_of_tod s (t0 + oneDay) htod hnext_mod (t0 / oneDay % 7) hd7 hc0
      have hadiv : a / oneDay ≤ t0 / oneDay := Nat.div_le_div_right ha0
      have hstep : (t0 + oneDay) / oneDay = t0 / oneDay + 1 := by
        simp only [oneDay]
        omega
      by_cases ht0now : t0 ≤ tnow
      · have hfuel2 : tnow / oneDay + 2 ≤ fuel + (t0 + oneDay) / oneDay := by
          rw [hstep]; omega
        obtain ⟨ihiff, ihpw⟩ := ih (t0 + oneDay) hnext_some hfuel2
        have hwalk : walkRule s tnow (fuel + 1) a = t0 :: walkRule s tnow fuel (t0 + oneDay) := by
          simp only [walkRule, if_neg hat]
          rw [ht0]
          simp [ht0now]
        rw [hwalk]
        constructor
        · intro t
          simp only [List.mem_cons]
          rw [ihiff t]
          constructor
          · rintro (rfl | ⟨hm, hge, hle⟩)
            · exact ⟨(matchesAt_true_iff s t).mpr ⟨hc0, hm0⟩, ha0, ht0now⟩
            · exact ⟨hm, by omega, hle⟩
          · rintro ⟨hm, hge, hle⟩
            obtain ⟨hm1, hm2⟩ := (matchesAt_true_iff s t).mp hm
            have hmint : t0 ≤ t := hmin0 t hm1 hm2 hge
            by_cases heq : t = t0
            · exact Or.inl heq
            · refine Or.inr ⟨hm, ?_, hle⟩
              simp only [oneDay] at hm0 hm2 ⊢
              omega
        · rw [List.pairwise_cons]
          refine ⟨fun y hy => ?_, ihpw⟩
          obtain ⟨-, hge, -⟩ := (ihiff y).mp hy
          simp only [oneDay] at hge ⊢
          omega
      · have hts : a ≤ tnow := Nat.not_lt.mp hat
        have htdiv : tnow / oneDay ≤ t0 / oneDay :=
          Nat.div_le_div_right (le_of_lt (Nat.not_le.mp ht0now))
        have hadiv2 : a / oneDay ≤ tnow / oneDay := Nat.div_le_div_right hts
        have hfuel2 : tnow / oneDay + 2 ≤ fuel + (t0 + oneDay) / oneDay := by
          rw [hstep]; omega
        obtain ⟨ihiff, ihpw⟩ := ih (t0 + oneDay) hnext_some hfuel2
        have hwalk : walkRule s tnow (fuel + 1) a = walkRule s tnow fuel (t0 + oneDay) := by
          simp only [walkRule, if_neg hat]
          rw [ht0]
          simp [ht0now]
        rw [hwalk]
        constructor
        · intro t
          rw [ihiff t]
          constructor
          · rintro ⟨hm, hge, hle⟩
            exfalso
            simp only [oneDay] at hge
            omega
          · rintro ⟨hm, hge, hle⟩
            obtain ⟨hm1, hm2⟩ := (matchesAt_true_iff s t).mp hm
            have := hmin0 t hm1 hm2 hge
            constructor
            · exact hm
            · omega
        · exact ihpw

/-- C5 (counterexample): at a rule for Wednesdays 08:00, past = Saturday-ish
minute 600 and now = minute 5320, the code's walk records exactly one event
for the one matching day, while the claim's day-start walk (specWalkRule)
records the same trigger three times — once per candidate day whose day-start
anchor still resolves to it.  The code's computation therefore is not the
claim's walk, and the claim's walk contradicts its own one-event-per-matching
-day clause. -/
theorem walk_day_start_cex :
    walkRuleTop sC5 600 5320 = [3360] ∧
    specWalkRule sC5 600 5320 = [3360, 3360, 3360] ∧
    walkRuleTop sC5 600 5320 ≠ specWalkRule sC5 600 5320 := by decide

/-- C5 (amended): the per-rule walk anchors GetNextTrigger at `past` itself
first and then at the previous trigger plus one day (not at day starts); when
the first GetNextTrigger call succeeds, the events recorded for a rule are
exactly the timestamps in [past, now] on a matching weekday at the rule's
time-of-day — one event per matching day, in strictly increasing order. -/
theorem walkRuleTop_characterization (s : Schedule) (past tnow : Nat)
    (htod : s.timeOfDay < oneDay) (hsome : (GetNextTrigger s past).isSome = true) :
    (∀ t, t ∈ walkRuleTop s past tnow ↔
      (matchesAt s t = true ∧ past ≤ t ∧ t ≤ tnow)) ∧
    (walkRuleTop s past tnow).Pairwise (· < ·) :=
  walkRule_spec s tnow htod (ruleFuel tnow) past hsome
    (le_trans (Nat.le_succ _) (Nat.le_add_right _ _))

/-- C5 witness: the characterization applied at the concrete rule and window
of the counterexample scenario, at the one recorded trigger timestamp. -/
theorem walkRuleTop_characterization_witness :
    sC5.timeOfDay < oneDay ∧ (GetNextTrigger sC5 600).isSome = true ∧
    (3360 ∈ walkRuleTop sC5 600 5320 ↔
      (matchesAt sC5 3360 = true ∧ 600 ≤ 3360 ∧ 3360 ≤ 5320)) :=
  ⟨by decide, by decide,
   (walkRuleTop_characterization sC5 600 5320 (by decide) (by decide)).1 3360⟩

lemma filterMap_flatMap {α β γ : Type} (l : List α) (f : α → List β) (p : β → Option γ) :
    (l.flatMap f).filterMap p = l.flatMap (fun x => (f x).filterMap p) := by
  induction l with
  | nil => rfl
  | cons x xs ih => simp [List.flatMap_cons, List.filterMap_append, ih]

lemma flatMap_map_left {α β γ : Type} (l : List α) (g : α → β) (f : β → List γ) :
    (l.map g).flatMap f = l.flatMap (fun x => f (g x)) := by
  induction l with
  | nil => rfl
  | cons x xs ih => simp [List.flatMap_cons, ih]

lemma map_flatMap_right {α β γ : Type} (l : List α) (f : α → List β) (g : β → γ) :
    (l.flatMap f).map g = l.flatMap (fun x => (f x).map g) := by
  induction l with
  | nil => rfl
  | cons x xs ih => simp [List.flatMap_cons, ih]

lemma getEventsRaw_subst (past tnow : Nat) (o c : Object) (hsched : c.schedule = o.schedule) :
    getEventsRaw past tnow o = (getEventsRaw past tnow c).map (substObj o) := by
  unfold getEventsRaw
  rw [hsched, map_flatMap_right]
  apply congrArg
  funext s
  rw [List.map_map]
  rfl

lemma insertEvent_map (g : event → event) (hg : ∀ e, (g e).ts = e.ts) (e : event) :
    ∀ l, insertEvent (g e) (l.map g) = (insertEvent e l).map g := by
  intro l
  induction l with
  | nil => simp [insertEvent]
  | cons f rest ih =>
    simp only [List.map_cons, insertEvent, hg]
    by_cases h : f.ts ≤ e.ts
    · rw [if_pos h, if_pos h, ih, List.map_cons]
    · rw [if_neg h, if_neg h, List.map_cons, List.map_cons]

lemma sortEvents_map (g : event → event) (hg : ∀ e, (g e).ts = e.ts) (l : List event) :
    sortEvents (l.map g) = (sortEvents l).map g := by
  suffices h : ∀ acc, (l.map g).foldl (fun a e => insertEvent e a) (acc.map g) =
      (l.foldl (fun a e => insertEvent e a) acc).map g by
    simpa using h []
  induction l with
  | nil => intro acc; simp
  | cons e rest ih =>
    intro acc
    simp only [List.map_cons, List.foldl_cons]
    rw [insertEvent_map g hg e acc]
    exact ih (insertEvent e acc)

lemma applyEvent_scaleProj (o o' : Object) (h : stripFails o = stripFails o') (e : event) :
    (applyEvent (substObj o e)).filterMap scaleProj =
    (applyEvent (substObj o' e)).filterMap scaleProj := by
  have huid : o.uid = o'.uid := by
    have := congrArg Object.uid h
    simpa [stripFails] using this
  have hhs : o.hasScale = o'.hasScale := by
    have := congrArg Object.hasScale h
    simpa [stripFails] using this
  simp only [applyEvent, substObj]
  rw [hhs, huid]
  by_cases hsc : o'.hasScale
  · simp only [hsc, if_pos]
    cases GetReplicas e.sched with
    | none => simp [scaleProj]
    | some n =>
      simp only [List.filterMap_cons]
      split <;> split <;> simp [scaleProj]
  · simp [hsc]

lemma perObject_attempts (past tnow : Nat) (o o' : Object)
    (h : stripFails o = stripFails o') :
    ((getEvents past tnow o).flatMap applyEvent).filterMap scaleProj =
    ((getEvents past tnow o').flatMap applyEvent).filterMap scaleProj := by
  have hs1 : (stripFails o).schedule = o.schedule := rfl
  have hs2 : (stripFails o).schedule = o'.schedule := by rw [h]; rfl
  have h1 : getEventsRaw past tnow o = (getEventsRaw past tnow (stripFails o)).map (substObj o) :=
    getEventsRaw_subst past tnow o (stripFails o) hs1
  have h2 : getEventsRaw past tnow o' = (getEventsRaw past tnow (stripFails o)).map (substObj o') :=
    getEventsRaw_subst past tnow o' (stripFails o) hs2
  rw [getEvents, h1, sortEvents_map (substObj o) (fun _ => rfl),
      getEvents, h2, sortEvents_map (substObj o') (fun _ => rfl),
      flatMap_map_left, flatMap_map_left, filterMap_flatMap, filterMap_flatMap]
  exact congrArg _ (funext (applyEvent_scaleProj o o' h))

lemma flatMap_attempts_congr (past tnow : Nat) :
    ∀ (objs objs' : List Object), objs.map stripFails = objs'.map stripFails →
      objs.flatMap (fun o => ((getEvents past tnow o).flatMap applyEvent).filterMap scaleProj) =
      objs'.flatMap (fun o => ((getEvents past tnow o).flatMap applyEvent).filterMap scaleProj) := by
  intro objs
  induction objs with
  | nil =>
    intro objs' h
    cases objs' with
    | nil => rfl
    | cons => simp at h
  | cons o os ih =>
    intro objs' h
    cases objs' with
    | nil => simp at h
    | cons o' os' =>
      simp only [List.map_cons, List.cons.injEq] at h
      simp only [List.flatMap_cons]
      rw [perObject_attempts past tnow o o' h.1, ih os' h.2]

/-- The tick's attempted (uid, replicas) scale calls are identical for any
two worker object lists that agree up to their scale-failure behaviour, and
past is advanced unconditionally: per-call Scale failures never change which
calls are attempted.  Supporting fact beside C7's main theorem. -/
theorem attempts_independent_of_scaleFails (objs objs' : List Object) (past now tnow : Nat)
    (h : objs.map stripFails = objs'.map stripFails) :
    attemptedScales ⟨objs, past, now⟩ tnow = attemptedScales ⟨objs', past, now⟩ tnow ∧
    (Scale ⟨objs, past, now⟩ tnow).1.past = tnow := by
  refine ⟨?_, rfl⟩
  unfold attemptedScales Scale
  simp only
  rw [filterMap_flatMap, filterMap_flatMap]
  exact flatMap_attempts_congr past tnow objs objs' h

/-- The supporting fact at a concrete pair of workers — one whose object's
scale call fails at the scheduled count, one without failures — with
identical attempts and past advancement. -/
theorem attempts_independent_of_scaleFails_check :
    ([oC7].map stripFails = [oC7f].map stripFails) ∧
    (attemptedScales ⟨[oC7], 600, 0⟩ 5320 = attemptedScales ⟨[oC7f], 600, 0⟩ 5320 ∧
     (Scale ⟨[oC7], 600, 0⟩ 5320).1.past = 5320) :=
  ⟨by decide, attempts_independent_of_scaleFails [oC7] [oC7f] 600 0 5320 (by decide)⟩

/-- C7: failures are logged and skipped without affecting the rest of the
tick.  For every object of the worker and every event of that object's tick
list (whatever failures other events suffer): the tick still attempts the
event's Scale call when GetReplicas succeeds; when the scale call fails at
that count the event's whole contribution is that attempt followed by exactly
one error log, both in the tick trace; when GetReplicas fails the event's
whole contribution is exactly one error log, in the tick trace and with no
Scale call for the event; and at tick end past is set to the tick's now
unconditionally. -/
theorem Scale_fault_isolation (w : Worker) (tnow : Nat) (o : Object) (e : event)
    (ho : o ∈ w.objects) (he : e ∈ getEvents w.past tnow o) (hs : e.obj.hasScale = true) :
    (Scale w tnow).1.past = tnow ∧
    (∀ n, GetReplicas e.sched = some n →
      Op.scaleCall e.obj.uid n ∈ (Scale w tnow).2 ∧
      (e.obj.scaleFails.contains n = true →
        applyEvent e = [Op.scaleCall e.obj.uid n, Op.logErr e.obj.uid] ∧
        Op.logErr e.obj.uid ∈ (Scale w tnow).2)) ∧
    (GetReplicas e.sched = Option.none →
      applyEvent e = [Op.logErr e.obj.uid] ∧
      Op.logErr e.obj.uid ∈ (Scale w tnow).2) := by
  have hmem : ∀ op ∈ applyEvent e, op ∈ (Scale w tnow).2 := by
    intro op hop
    simp only [Scale, List.mem_flatMap]
    exact ⟨o, ho, e, he, hop⟩
  refine ⟨rfl, ?_, ?_⟩
  · intro n hn
    refine ⟨hmem _ (by simp [applyEvent, hs, hn]), ?_⟩
    intro hf
    have hf2 : n ∈ e.obj.scaleFails := by simpa using hf
    refine ⟨by simp [applyEvent, hs, hn, hf2], hmem _ (by simp [applyEvent, hs, hn, hf2])⟩
  · intro hn
    exact ⟨by simp [applyEvent, hs, hn], hmem _ (by simp [applyEvent, hs, hn])⟩

/-- C7 witness: the theorem applied at a concrete worker whose single event
resolves GetReplicas to 0 and whose scale call fails at 0: the attempt and
the error log are both in the tick trace, the event's contribution is exactly
the attempt plus the log, and past advances to the tick time. -/
theorem Scale_fault_isolation_witness :
    (oC7 ∈ wC7.objects ∧ eC7 ∈ getEvents wC7.past 5320 oC7 ∧ eC7.obj.hasScale = true) ∧
    (Scale wC7 5320).1.past = 5320 ∧
    Op.scaleCall "u7" 0 ∈ (Scale wC7 5320).2 ∧
    applyEvent eC7 = [Op.scaleCall "u7" 0, Op.logErr "u7"] ∧
    Op.logErr "u7" ∈ (Scale wC7 5320).2 := by
  refine ⟨⟨by decide, by decide, by decide⟩, ?_, ?_, ?_, ?_⟩
  · exact (Scale_fault_isolation wC7 5320 oC7 eC7 (by decide) (by decide) (by decide)).1
  · exact ((Scale_fault_isolation wC7 5320 oC7 eC7 (by decide) (by decide) (by decide)).2.1
      0 (by decide)).1
  · exact (((Scale_fault_isolation wC7 5320 oC7 eC7 (by decide) (by decide) (by decide)).2.1
      0 (by decide)).2 (by decide)).1
  · exact (((Scale_fault_isolation wC7 5320 oC7 eC7 (by decide) (by decide) (by decide)).2.1
      0 (by decide)).2 (by decide)).2

end agent

end Nightshift
